import Mathlib

/-!
Shallow embedding of the Kingbase SQL validation module
(`skills/kingbase/scripts/validate.py`) together with proofs about its
checkers and the aggregating `validate_sql` function.

SQL text is embedded as `List Char` (Python `str`).  The regular
expressions of the source are embedded either through a small derivative
based matcher (`RE`, `reSearch` — used for the injection, credential and
performance pattern tables, which need only literals, character classes,
alternation and repetition) or through bespoke scanning functions for the
patterns that use word boundaries or a negative lookahead
(`containsWord`, `selectFromSearch`, `snf`).  The one fallible external
dependency — the schema-catalog lookup performed by
`validate_table_exists` — is embedded as an `Except String` parameter:
`Except.error e` models the lookup raising an exception `e`, and
`Except.ok ts` models a successful bulk listing of the table names
visible in the schema.
-/

/-- Severity levels, embedding `ValidationSeverity` of the source. -/
inductive Severity where
  | error : Severity
  | warning : Severity
  | info : Severity
deriving DecidableEq

/-- A validation issue, embedding the `ValidationIssue` dataclass.  The
source never fills `line` and `column`; they are kept for fidelity. -/
structure ValidationIssue where
  severity : Severity
  category : String
  message : String
  line : Option Nat
  column : Option Nat
  suggestion : Option String
deriving DecidableEq

/-- A validation result, embedding the `ValidationResult` dataclass. -/
structure ValidationResult where
  is_valid : Bool
  issues : List ValidationIssue
deriving DecidableEq

/-- `issue.severity == ValidationSeverity.ERROR` of the source. -/
def isErr (i : ValidationIssue) : Bool :=
  match i.severity with
  | Severity.error => true
  | _ => false

/-- The single-quote character (written numerically to keep the source
text free of quote literals). -/
def qc : Char := Char.ofNat 39

/-- The backslash character. -/
def bsc : Char := Char.ofNat 92

/-- The double-quote character. -/
def dqc : Char := Char.ofNat 34

/-- The opening-brace character. -/
def lbc : Char := Char.ofNat 123

/-- ASCII whitespace as recognised by Python `str.strip` and the regex
class `\s`: space, tab, newline, carriage return, vertical tab, form
feed. -/
def isWsC (c : Char) : Bool :=
  c == ' ' || c == '\t' || c == '\n' || c == '\r' || c == '\x0b' || c == '\x0c'

/-- A regex word character (`\w` over ASCII input): letters, digits,
underscore. -/
def isWordC (c : Char) : Bool :=
  c.isAlpha || c.isDigit || c == '_'

/-- Python `str.strip()`: drop whitespace from both ends. -/
def stripWs (s : List Char) : List Char :=
  ((s.dropWhile isWsC).reverse.dropWhile isWsC).reverse

/-- Count of occurrences of a single character, embedding
`str.count(c)`. -/
def countC (t : Char) : List Char → Nat
  | [] => 0
  | c :: cs => (if c = t then 1 else 0) + countC t cs

/-- Non-overlapping count of the two-character substring backslash-quote,
embedding `str.count("\x5c'")`.  (Occurrences of this substring can never
overlap, so greedy two-step counting is exactly Python's count.) -/
def countBQ : List Char → Nat
  | [] => 0
  | [_] => 0
  | a :: b :: rest =>
      if a = bsc ∧ b = qc then 1 + countBQ rest else countBQ (b :: rest)

/-- Embeds `re.search(r';\s*$', s)`: the last non-whitespace character of
`s` is a semicolon. -/
def endsSemi (s : List Char) : Bool :=
  match (s.reverse.dropWhile isWsC).head? with
  | some c => c == ';'
  | none => false

/-- Caseless prefix test: `pat` (given in lowercase) matches the start of
`s` up to ASCII case. -/
def startsCl : List Char → List Char → Bool
  | [], _ => true
  | _ :: _, [] => false
  | p :: ps, c :: cs => (c.toLower == p) && startsCl ps cs

/-- Word-ness of an optional character (string boundary counts as
non-word). -/
def isWordOpt : Option Char → Bool
  | none => false
  | some c => isWordC c

/-- The word FROM, lowercase. -/
def fromW : List Char := ("from").toList

/-- The word SELECT, lowercase. -/
def selW : List Char := ("select").toList

/-- `\bFROM\b` matches at the start of `s`, where `prev` is the character
preceding this position in the full text. -/
def fromWordAt (prev : Option Char) (s : List Char) : Bool :=
  startsCl fromW s && !(isWordOpt prev) && !(isWordOpt ((s.drop 4).head?))

/-- `.*\bFROM\b` matches starting at the current position (the lookahead
body of the SELECT-without-FROM check): since `.` does not match a
newline, the scan stops at the end of the current line. -/
def lineHasFrom : Option Char → List Char → Bool
  | _, [] => false
  | prev, c :: cs =>
      fromWordAt prev (c :: cs) || (!(c == '\n') && lineHasFrom (some c) cs)

/-- After the literal SELECT: `\s+(?!.*\bFROM\b)` — some nonempty run of
whitespace is consumed such that the remainder of the line contains no
FROM keyword.  Backtracking over `\s+` is modelled by trying every
nonempty whitespace prefix. -/
def wsThenNoFrom : List Char → Bool
  | [] => false
  | c :: cs => isWsC c && (!(lineHasFrom (some c) cs) || wsThenNoFrom cs)

/-- Embeds `re.search(r'SELECT\s+(?!.*\bFROM\b)', s, re.IGNORECASE)`. -/
def snf : List Char → Bool
  | [] => false
  | c :: cs => (startsCl selW (c :: cs) && wsThenNoFrom ((c :: cs).drop 6)) || snf cs

/-- Issue for empty input. -/
def emptyIssue : ValidationIssue :=
  ⟨Severity.error, "syntax", "Empty SQL statement", none, none, none⟩

/-- Issue for unbalanced parentheses (message interpolates both counts). -/
def parenIssue (o c : Nat) : ValidationIssue :=
  ⟨Severity.error, "syntax",
    "Unbalanced parentheses: " ++ toString o ++ " open, " ++ toString c ++ " close",
    none, none,
    some ("Ensure all opening parentheses have matching closing parentheses")⟩

/-- Issue for unbalanced single quotes. -/
def quoteIssue : ValidationIssue :=
  ⟨Severity.error, "syntax", "Unbalanced single quotes", none, none,
    some ("Ensure all single quotes are properly closed")⟩

/-- Info-level style note for a missing trailing semicolon. -/
def semicolonIssue : ValidationIssue :=
  ⟨Severity.info, "style", "Missing semicolon at end of statement", none, none,
    some ("Add semicolon for better SQL standards compliance")⟩

/-- Issue for a SELECT with no FROM on the rest of its line. -/
def selectFromIssue : ValidationIssue :=
  ⟨Severity.error, "syntax", "SELECT without FROM clause", none, none,
    some ("Check if SELECT statement is properly formed")⟩

/-- The issue list built by `validate_syntax` on non-empty (stripped)
input `c`, in the order the source appends: parentheses, quotes,
semicolon style note, SELECT-without-FROM. -/
def pPart (c : List Char) : List ValidationIssue :=
  if countC ('(') c = countC (')') c then []
  else [parenIssue (countC ('(') c) (countC (')') c)]

/-- Quote-balance component: the source computes
`sql_clean.count("'") - sql_clean.count("\x5c'")` and reports an error
when that is odd. -/
def qPart (c : List Char) : List ValidationIssue :=
  if (countC qc c - countBQ c) % 2 = 0 then [] else [quoteIssue]

/-- Missing-semicolon component. -/
def sPart (c : List Char) : List ValidationIssue :=
  if endsSemi c then [] else [semicolonIssue]

/-- SELECT-without-FROM component. -/
def fPart (c : List Char) : List ValidationIssue :=
  if snf c then [selectFromIssue] else []

/-- All issues of the non-empty branch of `validate_syntax`. -/
def stxIssues (c : List Char) : List ValidationIssue :=
  pPart c ++ qPart c ++ sPart c ++ fPart c

/-- Embeds `validate_syntax`: strip the input, short-circuit on emptiness
with a single error, otherwise run the four structural checks; the
result's `is_valid` is `len(issues) == 0`. -/
def validate_stx (sql : List Char) : ValidationResult :=
  if (stripWs sql).isEmpty then ⟨false, [emptyIssue]⟩
  else ⟨(stxIssues (stripWs sql)).isEmpty, stxIssues (stripWs sql)⟩

/-- Regular expressions over `Char`, sufficient for the pattern tables of
the source: character classes, concatenation, alternation, Kleene star.
Case-insensitivity is folded into the classes. -/
inductive RE where
  | emp : RE
  | eps : RE
  | cls : (Char → Bool) → RE
  | seq : RE → RE → RE
  | alt : RE → RE → RE
  | star : RE → RE

/-- Nullability: does the expression accept the empty word. -/
def reNull : RE → Bool
  | RE.emp => false
  | RE.eps => true
  | RE.cls _ => false
  | RE.seq a b => reNull a && reNull b
  | RE.alt a b => reNull a || reNull b
  | RE.star _ => true

/-- Brzozowski derivative with respect to one character. -/
def reDeriv : RE → Char → RE
  | RE.emp, _ => RE.emp
  | RE.eps, _ => RE.emp
  | RE.cls p, c => if p c then RE.eps else RE.emp
  | RE.seq a b, c =>
      if reNull a then RE.alt (RE.seq (reDeriv a c) b) (reDeriv b c)
      else RE.seq (reDeriv a c) b
  | RE.alt a b, c => RE.alt (reDeriv a c) (reDeriv b c)
  | RE.star a, c => RE.seq (reDeriv a c) (RE.star a)

/-- Does `r` match some prefix of `s`. -/
def rePref : RE → List Char → Bool
  | r, [] => reNull r
  | r, c :: cs => reNull r || rePref (reDeriv r c) cs

/-- Embeds `re.search`: does `r` match somewhere inside `s`. -/
def reSearch (r : RE) : List Char → Bool
  | [] => rePref r []
  | c :: cs => rePref r (c :: cs) || reSearch r cs

/-- A caseless literal character (`c` given in lowercase). -/
def cch (c : Char) : RE := RE.cls (fun d => d.toLower == c)

/-- A caseless literal word (given in lowercase). -/
def lit (w : String) : RE := w.toList.foldr (fun c r => RE.seq (cch c) r) RE.eps

/-- The class `\s`. -/
def wsC : RE := RE.cls isWsC

/-- `\s*`. -/
def wsS : RE := RE.star wsC

/-- `\s+`. -/
def wsP : RE := RE.seq wsC wsS

/-- The class `\d`. -/
def digC : RE := RE.cls Char.isDigit

/-- `\d+`. -/
def digP : RE := RE.seq digC (RE.star digC)

/-- The class `\w`. -/
def wordRe : RE := RE.cls isWordC

/-- `\w+`. -/
def wordP : RE := RE.seq wordRe (RE.star wordRe)

/-- Concatenation of a pattern list. -/
def cat (l : List RE) : RE := l.foldr RE.seq RE.eps

/-- `r?`. -/
def opt (r : RE) : RE := RE.alt RE.eps r

/-- A literal single quote. -/
def quoteRe : RE := RE.cls (fun d => d == qc)

/-- The table `SQL_INJECTION_PATTERNS` of the source, in order. -/
def sqlInjectionPatterns : List (RE × String) :=
  [ (cat [quoteRe, wsS, lit (";"), wsS, lit ("drop"), wsP, lit ("table")],
      "Potential DROP TABLE injection"),
    (cat [quoteRe, wsS, lit (";"), wsS, lit ("delete"), wsP, lit ("from")],
      "Potential DELETE injection"),
    (cat [quoteRe, wsS, lit (";"), wsS, lit ("exec"), wsS, lit ("(")],
      "Potential EXEC injection"),
    (cat [quoteRe, wsS, lit ("or"), wsP, opt quoteRe, digP, opt quoteRe, wsS,
        lit ("="), wsS, quoteRe, digP],
      "Potential OR-based injection"),
    (cat [quoteRe, wsS, lit ("and"), wsP, opt quoteRe, digP, opt quoteRe, wsS,
        lit ("="), wsS, quoteRe, digP],
      "Potential AND-based injection"),
    (cat [quoteRe, wsS, lit (";"), wsS, lit ("--")],
      "Comment-based injection"),
    (cat [lit ("admin"), quoteRe, lit ("--")],
      "Comment-based authentication bypass"),
    (cat [lit ("admin"), quoteRe, lit ("#")],
      "Comment-based authentication bypass"),
    (cat [quoteRe, wsP, lit ("or"), wsP, lit ("1"), wsS, lit ("="), wsS, lit ("1")],
      "Classic tautology injection"),
    (cat [lit ("union"), wsP, lit ("select")],
      "Potential UNION-based injection") ]

/-- The hardcoded-credential pattern of the source, embedding
`(password|passwd|pwd)\s*=\s*'[^{']+"` verbatim: note that it demands a
closing DOUBLE quote after the single-quoted literal. -/
def credentialPattern : RE :=
  cat [RE.alt (lit ("password")) (RE.alt (lit ("passwd")) (lit ("pwd"))),
    wsS, lit ("="), wsS, quoteRe,
    RE.seq (RE.cls (fun d => !(d == lbc) && !(d == qc)))
      (RE.star (RE.cls (fun d => !(d == lbc) && !(d == qc)))),
    RE.cls (fun d => d == dqc)]

/-- Issue produced for an injection-pattern match. -/
def injIssue (msg : String) : ValidationIssue :=
  ⟨Severity.error, "security", msg, none, none,
    some ("Use parameterized queries instead of string concatenation")⟩

/-- Issue produced for an apparent hardcoded credential. -/
def credIssue : ValidationIssue :=
  ⟨Severity.warning, "security", "Possible hardcoded password in query", none, none,
    some ("Use parameterized queries for sensitive data")⟩

/-- Embeds `validate_security`: scan the injection table in order, then
the credential pattern; `is_valid` is hardcoded `True`. -/
def validate_security (sql : List Char) : ValidationResult :=
  ⟨true,
    ((sqlInjectionPatterns.filter (fun pm => reSearch pm.1 sql)).map
      (fun pm => injIssue pm.2)) ++
    (if reSearch credentialPattern sql then [credIssue] else [])⟩

/-- The table `PERFORMANCE_PATTERNS` of the source, in order. -/
def performancePatterns : List (RE × String) :=
  [ (cat [lit ("select"), wsP, lit ("*"), wsP, lit ("from")],
      "SELECT * can be inefficient, specify columns"),
    (cat [lit ("select"), wsP, lit ("*"), wsP, lit ("from"), wsP, wordP, wsP,
        lit ("where"), wsP, wordP, wsP, lit ("like"), wsP, quoteRe, lit ("%"),
        RE.star (RE.cls (fun d => !(d == '%'))), lit ("%"), quoteRe],
      "Leading wildcard in LIKE prevents index use"),
    (cat [lit ("where"), wsP, lit ("substr(")],
      "Function on column in WHERE prevents index use"),
    (cat [lit ("where"), wsP, lit ("substring(")],
      "Function on column in WHERE prevents index use"),
    (cat [lit ("where"), wsP, lit ("lower(")],
      "Function on column in WHERE prevents index use"),
    (cat [lit ("where"), wsP, lit ("upper(")],
      "Function on column in WHERE prevents index use"),
    (cat [lit ("order"), wsP, lit ("by"), wsP, digP,
        RE.star (cat [wsS, lit (","), wsS, digP])],
      "ORDER BY ordinal position is fragile") ]

/-- `\bw\b` matches at the start of `s` with preceding character `prev`
(caseless; `w` given in lowercase). -/
def wordAt (w : List Char) (prev : Option Char) (s : List Char) : Bool :=
  startsCl w s && !(isWordOpt prev) && !(isWordOpt ((s.drop w.length).head?))

/-- Scanner underlying `containsWord`. -/
def containsWordAux (w : List Char) : Option Char → List Char → Bool
  | _, [] => false
  | prev, c :: cs => wordAt w prev (c :: cs) || containsWordAux w (some c) cs

/-- Embeds `re.search(r'\bw\b', s, re.IGNORECASE)` for a literal word
`w`. -/
def containsWord (w : List Char) (s : List Char) : Bool :=
  containsWordAux w none s

/-- Nonempty-run scanner for `SELECT.+FROM`: consume at least one
non-newline character, then the literal FROM. -/
def sfAfter : List Char → Bool
  | [] => false
  | c :: cs => !(c == '\n') && (startsCl fromW cs || sfAfter cs)

/-- Embeds `re.search(r'SELECT.+FROM', s, re.IGNORECASE)`: note that `.`
does not match a newline, so SELECT and FROM must sit on one line with at
least one character between them. -/
def selectFromSearch : List Char → Bool
  | [] => false
  | c :: cs => (startsCl selW (c :: cs) && sfAfter ((c :: cs).drop 6)) || selectFromSearch cs

/-- The word LIMIT, lowercase. -/
def limitW : List Char := ("limit").toList

/-- The word DELETE, lowercase. -/
def deleteW : List Char := ("delete").toList

/-- The word UPDATE, lowercase. -/
def updateW : List Char := ("update").toList

/-- The word WHERE, lowercase. -/
def whereW : List Char := ("where").toList

/-- Info issue for a missing LIMIT clause. -/
def limitIssue : ValidationIssue :=
  ⟨Severity.info, "performance", "No LIMIT clause on SELECT statement", none, none,
    some ("Consider adding LIMIT to prevent large result sets")⟩

/-- Warning issue for DELETE/UPDATE without WHERE. -/
def dmlWhereIssue : ValidationIssue :=
  ⟨Severity.warning, "performance", "DELETE/UPDATE without WHERE clause", none, none,
    some ("Ensure WHERE clause is present to avoid full table operations")⟩

/-- Issue produced for a performance-pattern match. -/
def perfIssue (msg : String) : ValidationIssue :=
  ⟨Severity.warning, "performance", msg, none, none, none⟩

/-- Embeds `validate_performance`: the pattern table, then the
missing-LIMIT heuristic, then the missing-WHERE heuristic; `is_valid` is
hardcoded `True`. -/
def validate_performance (sql : List Char) : ValidationResult :=
  ⟨true,
    ((performancePatterns.filter (fun pm => reSearch pm.1 sql)).map
      (fun pm => perfIssue pm.2)) ++
    (if selectFromSearch sql && !(containsWord limitW sql) then [limitIssue] else []) ++
    (if (containsWord deleteW sql || containsWord updateW sql) && !(containsWord whereW sql)
      then [dmlWhereIssue] else [])⟩

/-- First character of an identifier: `[a-zA-Z_]`. -/
def identStart (c : Char) : Bool := c.isAlpha || c == '_'

/-- Later characters of an identifier: `[a-zA-Z0-9_]`. -/
def identChar (c : Char) : Bool := c.isAlpha || c.isDigit || c == '_'

/-- Require at least one whitespace character and consume the whole
greedy run (`\s+` directly followed by a non-whitespace token). -/
def chompWs1 : List Char → Option (List Char)
  | [] => none
  | c :: cs => if isWsC c then some (cs.dropWhile isWsC) else none

/-- Consume a caseless literal word. -/
def chompCl (w : List Char) (s : List Char) : Option (List Char) :=
  if startsCl w s then some (s.drop w.length) else none

/-- Consume a keyword anchor made of one or more words separated by
`\s+`. -/
def chompWords : List (List Char) → List Char → Option (List Char)
  | [], s => some s
  | [w], s => chompCl w s
  | w :: ws, s => (chompCl w s).bind (fun s1 => (chompWs1 s1).bind (chompWords ws))

/-- Try to match `KEYWORD(S)\s+([a-zA-Z_][a-zA-Z0-9_]*)` at the current
position; on success return the captured identifier and the remainder of
the text after the match. -/
def matchAnchorAt (kws : List (List Char)) (s : List Char) : Option (List Char × List Char) :=
  (chompWords kws s).bind (fun s1 => (chompWs1 s1).bind (fun s2 =>
    match s2 with
    | c :: cs =>
        if identStart c then some (c :: cs.takeWhile identChar, cs.dropWhile identChar)
        else none
    | [] => none))

/-- First matching alternative of an anchor alternation, tried in the
order the source lists them. -/
def matchFirst : List (List (List Char))  → List Char → Option (List Char × List Char)
  | [], _ => none
  | kws :: rest, s =>
      match matchAnchorAt kws s with
      | some r => some r
      | none => matchFirst rest s

/-- Fuel-bounded left-to-right non-overlapping scan, embedding
`re.finditer`: at every position where the word boundary `\b` holds
(preceding character not a word character) the matcher is tried; on a
match the captured identifier is collected and scanning resumes after the
match.  Each step consumes at least one character, so fuel
`s.length + 1` makes the bound inoperative. -/
def scanIdents (m : List Char → Option (List Char × List Char)) :
    Nat → Option Char → List Char → List (List Char)
  | 0, _, _ => []
  | _ + 1, _, [] => []
  | fuel + 1, prev, c :: cs =>
      if isWordOpt prev then scanIdents m fuel (some c) cs
      else
        match m (c :: cs) with
        | some (ident, rest) => ident :: scanIdents m fuel ident.getLast? rest
        | none => scanIdents m fuel (some c) cs

/-- All identifiers captured by matcher `m` over `s`. -/
def extractIdents (m : List Char → Option (List Char × List Char)) (s : List Char) :
    List (List Char) :=
  scanIdents m (s.length + 1) none s

/-- The word JOIN, lowercase. -/
def joinW : List Char := ("join").toList

/-- The word INSERT, lowercase. -/
def insertW : List Char := ("insert").toList

/-- The word INTO, lowercase. -/
def intoW : List Char := ("into").toList

/-- The word CREATE, lowercase. -/
def createW : List Char := ("create").toList

/-- The word TABLE, lowercase. -/
def tableW : List Char := ("table").toList

/-- The word DROP, lowercase. -/
def dropW : List Char := ("drop").toList

/-- The five `identifier_patterns` of `validate_naming`, in order; each
is scanned separately over the whole text. -/
def namingAnchorSets : List (List (List Char)) :=
  [[fromW], [joinW], [insertW, intoW], [updateW], [createW, tableW]]

/-- `re.search(r'[a-z][A-Z]', ident)`: a lowercase letter immediately
followed by an uppercase letter. -/
def hasMixedCase : List Char → Bool
  | [] => false
  | [_] => false
  | c :: d :: rest => (c.isLower && d.isUpper) || hasMixedCase (d :: rest)

/-- Info issue reported for a mixed-case identifier. -/
def namingIssue (id : List Char) : ValidationIssue :=
  ⟨Severity.info, "naming", "Identifier '" ++ String.mk id ++ "' uses mixed case",
    none, none, some ("Consider using snake_case for consistency")⟩

/-- Embeds `validate_naming`: for each anchor pattern in order, for each
captured identifier in scan order, report mixed-case identifiers;
`is_valid` is hardcoded `True`. -/
def validate_naming (sql : List Char) : ValidationResult :=
  ⟨true,
    ((namingAnchorSets.map
        (fun kws => (extractIdents (matchAnchorAt kws) sql).filter hasMixedCase)).flatten).map
      namingIssue⟩

/-- The single alternation anchor of `validate_table_exists`:
`FROM|JOIN|INSERT\s+INTO|UPDATE|CREATE\s+TABLE|DROP\s+TABLE`. -/
def tableAnchorAlts : List (List (List Char)) :=
  [[fromW], [joinW], [insertW, intoW], [updateW], [createW, tableW], [dropW, tableW]]

/-- Raw table references extracted by `re.findall` with the alternation
anchor. -/
def extractTablesRaw (sql : List Char) : List (List Char) :=
  extractIdents (matchFirst tableAnchorAlts) sql

/-- ASCII lowercase of a name (`str.lower`). -/
def lowerL (t : List Char) : List Char := t.map Char.toLower

/-- Keywords excluded from the extracted table list. -/
def kwExcl : List (List Char) :=
  [("select").toList, ("where").toList, ("order").toList, ("group").toList]

/-- Order-fixing embedding of
`list(set([t.lower() for t in tables if ...]))`: lowercase, drop
accidental keywords, deduplicate.  (CPython's `set` fixes no iteration
order; this embedding keeps first occurrences.  No claim depends on the
order of this list.) -/
def referencedTables (sql : List Char) : List (List Char) :=
  ((extractTablesRaw sql).map lowerL).filter (fun t => !(kwExcl.contains t))
    |>.foldl (fun acc t => if acc.contains t then acc else acc ++ [t]) []

/-- The Warning issue produced when the catalog lookup raises `e`. -/
def existWarn (e : String) : ValidationIssue :=
  ⟨Severity.warning, "existence", "Could not verify table existence: " ++ e,
    none, none, some ("Ensure database connection is working")⟩

/-- The Error issue produced for a table absent from the catalog. -/
def existErr (t : List Char) (schema : String) : ValidationIssue :=
  ⟨Severity.error, "existence",
    "Table '" ++ String.mk t ++ "' does not exist in schema '" ++ schema ++ "'",
    none, none, some ("Verify table name or create the table first")⟩

/-- Embeds `validate_table_exists`.  The database round trip is modelled
by `catalog`: `Except.ok ts` is the bulk listing of table names visible
in the schema, `Except.error e` is the lookup raising exception `e`
(caught by the source and converted into a single Warning).  If no table
is referenced the function returns a valid empty result without touching
the catalog.  `is_valid` is `len(issues) == 0`. -/
def validate_table_exists (sql : List Char) (schema : String)
    (catalog : Except String (List (List Char))) : ValidationResult :=
  if (referencedTables sql).isEmpty then ⟨true, []⟩
  else
    match catalog with
    | Except.error e => ⟨false, [existWarn e]⟩
    | Except.ok ts =>
        let existing := ts.map lowerL
        let issues := ((referencedTables sql).filter
            (fun t => !(existing.contains t))).map (fun t => existErr t schema)
        ⟨issues.isEmpty, issues⟩

/-- Embeds `validate_sql`: concatenate the issue lists of the four
always-run checkers in their fixed order, append the existence pass when
requested, and recompute overall validity as absence of Error-severity
issues.  The `config` of the source is collapsed into the `schema` name
it supplies and the `catalog` round trip. -/
def validate_sql (sql : List Char) (schema : String) (check_existence : Bool)
    (catalog : Except String (List (List Char))) : ValidationResult :=
  let allIssues :=
    (validate_stx sql).issues ++ (validate_security sql).issues ++
    (validate_performance sql).issues ++ (validate_naming sql).issues ++
    (if check_existence then (validate_table_exists sql schema catalog).issues else [])
  ⟨!(allIssues.any isErr), allIssues⟩

/-- Helper for relating the source's substring arithmetic to the spec's
wording: scanning count of single quotes whose directly preceding
character is a backslash (`prev` is the character before the current
position). -/
def pairBQ : Option Char → List Char → Nat
  | _, [] => 0
  | p, c :: cs => (if c = qc ∧ p = some bsc then 1 else 0) + pairBQ (some c) cs

/-- Scanning count of single quotes NOT directly preceded by a
backslash. -/
def uqAux : Option Char → List Char → Nat
  | _, [] => 0
  | p, c :: cs => (if c = qc ∧ ¬(p = some bsc) then 1 else 0) + uqAux (some c) cs

/-- Stated from the spec's words, to be compared with the code's
`count("'") - count("\x5c'")`: the count of unescaped single quotes,
where a quote directly preceded by a backslash is excluded from the
count. -/
def unescapedQuoteCount (s : List Char) : Nat := uqAux none s

/-- The documented category set of the spec's data model. -/
def documentedCategories : List String :=
  ["syntax", "security", "performance", "naming", "existence"]


theorem countC_split (s : List Char) : ∀ p, countC qc s = pairBQ p s + uqAux p s := by
  induction s with
  | nil => intro p; rfl
  | cons c cs ih =>
      intro p
      simp only [countC, pairBQ, uqAux]
      rw [ih (some c)]
      by_cases hc : c = qc
      · by_cases hp : p = some bsc
        · simp [hc, hp]; omega
        · simp [hc, hp]; omega
      · simp [hc]

theorem countBQ_key :
    ∀ n s p, s.length ≤ n → ¬(p = some bsc ∧ s.head? = some qc) →
      countBQ s = pairBQ p s := by
  intro n
  induction n with
  | zero =>
      intro s p hl _
      have hs : s = [] := List.length_eq_zero.mp (Nat.le_zero.mp hl)
      subst hs; rfl
  | succ n ih =>
      intro s p hl hp
      match s with
      | [] => rfl
      | [a] =>
          have hne : ¬(a = qc ∧ p = some bsc) := fun h => hp ⟨h.2, by simp [h.1]⟩
          simp [countBQ, pairBQ, hne]
      | a :: b :: rest =>
          by_cases hab : a = bsc ∧ b = qc
          · have hq : ¬(some b = some bsc ∧ rest.head? = some qc) := by
              intro h
              have hb : b = bsc := Option.some.inj h.1
              rw [hab.2] at hb
              exact absurd hb (by decide)
            have hlen : rest.length ≤ n := by
              simp only [List.length_cons] at hl; omega
            have h2 := ih rest (some b) hlen hq
            have hne : ¬(a = qc ∧ p = some bsc) := by
              intro h
              have : bsc = qc := by rw [← hab.1, h.1]
              exact absurd this (by decide)
            have hbq : ¬(bsc = qc) := by decide
            simp [countBQ, pairBQ, hab, hab.1, hab.2, hne, h2, hbq]
          · have hne : ¬(a = qc ∧ p = some bsc) := fun h => hp ⟨h.2, by simp [h.1]⟩
            have hq : ¬(some a = some bsc ∧ (b :: rest).head? = some qc) := by
              intro h
              exact hab ⟨Option.some.inj h.1, Option.some.inj (by simpa using h.2)⟩
            have hlen : (b :: rest).length ≤ n := by
              simp only [List.length_cons] at hl ⊢; omega
            have h2 := ih (b :: rest) (some a) hlen hq
            simp [countBQ, pairBQ, hab, hne, h2]

theorem countBQ_eq_pair (s : List Char) : countBQ s = pairBQ none s :=
  countBQ_key s.length s none le_rfl (by simp)

theorem code_quote_count (s : List Char) :
    countC qc s - countBQ s = unescapedQuoteCount s := by
  have h1 := countC_split s none
  have h2 := countBQ_eq_pair s
  unfold unescapedQuoteCount
  omega

theorem isErr_eq_false_iff (i : ValidationIssue) :
    isErr i = false ↔ i.severity ≠ Severity.error := by
  cases h : i.severity <;> simp [isErr, h]

theorem any_isErr_eq_false_iff (l : List ValidationIssue) :
    l.any isErr = false ↔ ∀ i ∈ l, i.severity ≠ Severity.error := by
  induction l with
  | nil => simp
  | cons a l ih =>
      simp [List.any_cons, Bool.or_eq_false_iff, ih, isErr_eq_false_iff]

theorem quote_ne_paren (o c : Nat) : quoteIssue ≠ parenIssue o c := by
  intro h
  have h2 := congrArg ValidationIssue.suggestion h
  simp [quoteIssue, parenIssue] at h2

theorem semicolon_ne_paren (o c : Nat) : semicolonIssue ≠ parenIssue o c := by
  intro h
  have h2 := congrArg ValidationIssue.severity h
  simp [semicolonIssue, parenIssue] at h2

theorem select_ne_paren (o c : Nat) : selectFromIssue ≠ parenIssue o c := by
  intro h
  have h2 := congrArg ValidationIssue.suggestion h
  simp [selectFromIssue, parenIssue] at h2

theorem quote_not_mem_pPart (c : List Char) : quoteIssue ∉ pPart c := by
  unfold pPart
  split_ifs
  · simp
  · simp only [List.mem_singleton]
    exact quote_ne_paren _ _

theorem semicolon_not_mem_pPart (c : List Char) : semicolonIssue ∉ pPart c := by
  unfold pPart
  split_ifs
  · simp
  · simp only [List.mem_singleton]
    exact semicolon_ne_paren _ _

theorem select_not_mem_pPart (c : List Char) : selectFromIssue ∉ pPart c := by
  unfold pPart
  split_ifs
  · simp
  · simp only [List.mem_singleton]
    exact select_ne_paren _ _

theorem mem_qPart_iff (c : List Char) :
    quoteIssue ∈ qPart c ↔ ¬((countC qc c - countBQ c) % 2 = 0) := by
  unfold qPart
  split_ifs with h <;> simp [h]

theorem quote_not_mem_sPart (c : List Char) : quoteIssue ∉ sPart c := by
  unfold sPart
  cases h : endsSemi c
  · simp only [Bool.false_eq_true, if_false, List.mem_singleton]
    decide
  · simp

theorem quote_not_mem_fPart (c : List Char) : quoteIssue ∉ fPart c := by
  unfold fPart
  cases h : snf c
  · simp
  · simp only [if_true, List.mem_singleton]
    decide

theorem mem_sPart_iff (c : List Char) :
    semicolonIssue ∈ sPart c ↔ endsSemi c = false := by
  unfold sPart
  split_ifs with h
  · simp [h]
  · simp only [Bool.not_eq_true] at h
    simp [h]

theorem mem_fPart (c : List Char) (h : snf c = true) : selectFromIssue ∈ fPart c := by
  unfold fPart
  rw [if_pos h]
  exact List.mem_singleton_self _

theorem quote_mem_stx_iff (c : List Char) :
    quoteIssue ∈ stxIssues c ↔ ¬((countC qc c - countBQ c) % 2 = 0) := by
  unfold stxIssues
  simp only [List.mem_append]
  constructor
  · rintro (((h | h) | h) | h)
    · exact absurd h (quote_not_mem_pPart c)
    · exact (mem_qPart_iff c).mp h
    · exact absurd h (quote_not_mem_sPart c)
    · exact absurd h (quote_not_mem_fPart c)
  · intro h
    exact Or.inl (Or.inl (Or.inr ((mem_qPart_iff c).mpr h)))

theorem semicolon_mem_stx (c : List Char) (h : endsSemi c = false) :
    semicolonIssue ∈ stxIssues c := by
  unfold stxIssues
  simp only [List.mem_append]
  exact Or.inl (Or.inr ((mem_sPart_iff c).mpr h))

theorem select_mem_stx (c : List Char) (h : snf c = true) :
    selectFromIssue ∈ stxIssues c := by
  unfold stxIssues
  simp only [List.mem_append]
  exact Or.inr (mem_fPart c h)

theorem validate_stx_of_ne (sql : List Char) (h : stripWs sql ≠ []) :
    validate_stx sql = ⟨(stxIssues (stripWs sql)).isEmpty, stxIssues (stripWs sql)⟩ := by
  have hf : (stripWs sql).isEmpty = false := by
    cases hs : stripWs sql
    · exact absurd hs h
    · rfl
  unfold validate_stx
  simp [hf]

theorem validate_stx_of_nil (sql : List Char) (h : stripWs sql = []) :
    validate_stx sql = ⟨false, [emptyIssue]⟩ := by
  unfold validate_stx
  rw [h]
  rfl

theorem dropWhile_idem (p : Char → Bool) (l : List Char) :
    (l.dropWhile p).dropWhile p = l.dropWhile p := by
  induction l with
  | nil => rfl
  | cons c cs ih =>
      by_cases h : p c
      · simp [List.dropWhile_cons, h, ih]
      · simp [List.dropWhile_cons, h]

theorem dropWhile_append_ne (p : Char → Bool) (a b : List Char)
    (h : a.dropWhile p ≠ []) : (a ++ b).dropWhile p = a.dropWhile p ++ b := by
  induction a with
  | nil => exact absurd rfl h
  | cons c cs ih =>
      by_cases hc : p c
      · rw [List.dropWhile_cons, if_pos hc] at h
        simp only [List.cons_append, List.dropWhile_cons, hc, if_true]
        exact ih h
      · simp [List.cons_append, List.dropWhile_cons, hc]

theorem head?_append_ne (a b : List Char) (h : a ≠ []) :
    (a ++ b).head? = a.head? := by
  cases a with
  | nil => exact absurd rfl h
  | cons c cs => rfl

theorem dropWhile_head_false (p : Char → Bool) :
    ∀ (l : List Char) (c : Char) (cs : List Char),
      l.dropWhile p = c :: cs → p c = false := by
  intro l
  induction l with
  | nil => intro c cs h; cases h
  | cons a as ih =>
      intro c cs h
      by_cases ha : p a
      · rw [List.dropWhile_cons, if_pos ha] at h
        exact ih c cs h
      · rw [List.dropWhile_cons, if_neg ha] at h
        cases h
        simp only [Bool.not_eq_true] at ha
        exact ha

theorem all_ws_dropWhile_nil (l : List Char) (h : ∀ x ∈ l, isWsC x = true) :
    l.dropWhile isWsC = [] := by
  induction l with
  | nil => rfl
  | cons c cs ih =>
      rw [List.dropWhile_cons, if_pos (h c (by simp))]
      exact ih (fun x hx => h x (by simp [hx]))

theorem dropWhile_nil_all_ws (l : List Char) (h : l.dropWhile isWsC = []) :
    ∀ x ∈ l, isWsC x = true := by
  induction l with
  | nil => simp
  | cons c cs ih =>
      intro x hx
      by_cases hc : isWsC c
      · rw [List.dropWhile_cons, if_pos hc] at h
        rcases List.mem_cons.mp hx with hh | h2
        · rw [hh]; exact hc
        · exact ih h x h2
      · rw [List.dropWhile_cons, if_neg hc] at h
        cases h

theorem endsSemi_stripWs (s : List Char) : endsSemi (stripWs s) = endsSemi s := by
  unfold endsSemi stripWs
  rw [List.reverse_reverse, dropWhile_idem]
  by_cases hm : s.dropWhile isWsC = []
  · rw [hm]
    have hall : ∀ x ∈ s, isWsC x = true := dropWhile_nil_all_ws s hm
    have hr : s.reverse.dropWhile isWsC = [] :=
      all_ws_dropWhile_nil _ (fun x hx => hall x (List.mem_reverse.mp hx))
    rw [hr]
    rfl
  · obtain ⟨c, cs, hc⟩ : ∃ c cs, s.dropWhile isWsC = c :: cs := by
      cases hx : s.dropWhile isWsC
      · exact absurd hx hm
      · exact ⟨_, _, rfl⟩
    have hrev_ne : (s.dropWhile isWsC).reverse.dropWhile isWsC ≠ [] := by
      intro hnil
      have hall := dropWhile_nil_all_ws _ hnil
      have hcmem : c ∈ (s.dropWhile isWsC).reverse := by
        rw [hc]; simp
      have h1 := hall c hcmem
      have h2 : isWsC c = false := dropWhile_head_false isWsC s c cs hc
      rw [h2] at h1
      cases h1
    have hrev : s.reverse = (s.dropWhile isWsC).reverse ++ (s.takeWhile isWsC).reverse := by
      rw [← List.reverse_append, List.takeWhile_append_dropWhile]
    rw [hrev, dropWhile_append_ne _ _ _ hrev_ne, head?_append_ne _ _ hrev_ne]

theorem startsCl_append (p : List Char) :
    ∀ a b, startsCl p a = true → a.length = p.length → startsCl p (a ++ b) = true := by
  induction p with
  | nil => intro a b _ _; rfl
  | cons x xs ih =>
      intro a b h hl
      cases a with
      | nil => simp at hl
      | cons c cs =>
          simp only [startsCl, Bool.and_eq_true] at h
          simp only [List.cons_append, startsCl, Bool.and_eq_true]
          exact ⟨h.1, ih cs b h.2 (by simpa using hl)⟩

theorem snf_head (t : List Char) (hne : t ≠ [])
    (h : (startsCl selW t && wsThenNoFrom (t.drop 6)) = true) : snf t = true := by
  cases t with
  | nil => exact absurd rfl hne
  | cons c cs =>
      simp only [snf]
      rw [h]
      simp

theorem snf_append (pre t : List Char) (h : snf t = true) : snf (pre ++ t) = true := by
  induction pre with
  | nil => simpa using h
  | cons p ps ih =>
      simp only [List.cons_append, snf, List.append_eq]
      rw [ih]
      simp

theorem validate_sql_valid_iff (sql : List Char) (schema : String) (ce : Bool)
    (cat : Except String (List (List Char))) :
    (validate_sql sql schema ce cat).is_valid = true ↔
      ∀ i ∈ (validate_sql sql schema ce cat).issues, i.severity ≠ Severity.error := by
  have h0 : (validate_sql sql schema ce cat).is_valid
      = !((validate_sql sql schema ce cat).issues.any isErr) := rfl
  rw [h0, Bool.not_eq_true']
  exact any_isErr_eq_false_iff _

/-- C1 counterexample: the security checker hardcodes `is_valid = True`,
so on `admin'--` it returns a result whose `is_valid` is `true` although
its issue list contains an Error-severity issue — the claimed invariant
fails for results produced by individual checkers. -/
theorem c1_counterexample :
    (validate_security (("admin'--").toList)).is_valid = true ∧
    (validate_security (("admin'--").toList)).issues.any isErr = true := by
  decide

/-- C1 (amended): the `is_valid == no Error-severity issue` invariant
holds for the result produced by the aggregator `validate_sql`; the
individual checkers do not maintain it (security, performance and naming
hardcode `is_valid = True` even with Error issues, and the syntax and
existence checkers set `is_valid = False` on non-Error issues). -/
theorem c1_amended_aggregator_invariant :
    ∀ (sql : List Char) (schema : String) (ce : Bool)
      (cat : Except String (List (List Char))),
      (validate_sql sql schema ce cat).is_valid = true ↔
        ∀ i ∈ (validate_sql sql schema ce cat).issues, i.severity ≠ Severity.error := by
  intro sql schema ce cat
  exact validate_sql_valid_iff sql schema ce cat

/-- C3: the aggregator's issue list is exactly the concatenation of the
syntax, security, performance and naming checkers' issue lists in that
fixed order, with the existence checker's issues appended last when
enabled, and its `is_valid` is recomputed as absence of Error-severity
issues in that concatenated list — not the conjunction of the
sub-results' own flags, as the concrete instance shows: on
`INSERT INTO t VALUES (1)` the syntax checker's own flag is `false`
(it has an Info style note) while the aggregate is `true`. -/
theorem c3_aggregation_order_and_validity :
    (∀ (sql : List Char) (schema : String) (ce : Bool)
        (cat : Except String (List (List Char))),
      (validate_sql sql schema ce cat).issues =
        (validate_stx sql).issues ++ (validate_security sql).issues ++
        (validate_performance sql).issues ++ (validate_naming sql).issues ++
        (if ce then (validate_table_exists sql schema cat).issues else []) ∧
      (validate_sql sql schema ce cat).is_valid =
        !((validate_sql sql schema ce cat).issues.any isErr)) ∧
    ((validate_sql (("INSERT INTO t VALUES (1)").toList) "public" false
        (Except.error "e")).is_valid = true ∧
      (validate_stx (("INSERT INTO t VALUES (1)").toList)).is_valid = false) :=
  ⟨fun _ _ _ _ => ⟨rfl, rfl⟩, by decide, by decide⟩

/-- C5: empty or whitespace-only input short-circuits the syntax checker
to exactly one Error of category `syntax` with the empty-statement
message and `is_valid = false`; consequently `validate` of the empty
string (existence pass off, its default) returns exactly that single
issue. -/
theorem c5_empty_input :
    (∀ sql : List Char, stripWs sql = [] →
        validate_stx sql = ⟨false, [emptyIssue]⟩) ∧
    (∀ (schema : String) (cat : Except String (List (List Char))),
        validate_sql [] schema false cat = ⟨false, [emptyIssue]⟩) := by
  constructor
  · intro sql h
    exact validate_stx_of_nil sql h
  · intro schema cat
    rfl

/-- Witness for C5 at whitespace-only and empty concrete inputs. -/
theorem c5_witness :
    validate_stx (("   ").toList) = ⟨false, [emptyIssue]⟩ ∧
    validate_sql [] "public" false (Except.error "e") = ⟨false, [emptyIssue]⟩ :=
  ⟨c5_empty_input.1 (("   ").toList) (by decide),
    c5_empty_input.2 "public" (Except.error "e")⟩

/-- C6: the syntax checker reports the unbalanced-single-quote Error
exactly when the count of unescaped single quotes in the (stripped) text
is odd, where a quote directly preceded by a backslash is excluded from
the count (`unescapedQuoteCount` is stated from the spec's words; the
code's `count("'") - count("\x5c'")` is proved equal to it). -/
theorem c6_unbalanced_quotes_iff_odd :
    ∀ sql : List Char,
      quoteIssue ∈ (validate_stx sql).issues ↔
        unescapedQuoteCount (stripWs sql) % 2 = 1 := by
  intro sql
  by_cases h : stripWs sql = []
  · rw [validate_stx_of_nil sql h, h]
    simp [quoteIssue, emptyIssue, unescapedQuoteCount, uqAux]
  · rw [validate_stx_of_ne sql h]
    show quoteIssue ∈ stxIssues (stripWs sql) ↔ _
    rw [quote_mem_stx_iff, code_quote_count (stripWs sql)]
    omega

/-- C4 counterexample: on `INSERT INTO t VALUES (1)` the syntax checker's
result consists of the missing-semicolon Info note alone and has
`is_valid = false`, while the same statement with a trailing semicolon
yields `is_valid = true` — so the note does affect the `is_valid` flag of
the checker result it appears in. -/
theorem c4_counterexample :
    validate_stx (("INSERT INTO t VALUES (1);").toList) = ⟨true, []⟩ ∧
    validate_stx (("INSERT INTO t VALUES (1)").toList) = ⟨false, [semicolonIssue]⟩ := by
  decide

/-- C4 (amended): for every non-empty input whose stripped text does not
end in a semicolon the syntax checker emits the Info-severity style note
(never an Error for this condition), and the note cannot affect the
aggregator's `is_valid`, which depends only on Error-severity issues;
the note does, however, make the syntax checker's own `is_valid` false,
since that checker equates validity with an empty issue list. -/
theorem c4_amended_semicolon_note :
    ∀ (sql : List Char) (schema : String) (ce : Bool)
      (cat : Except String (List (List Char))),
      stripWs sql ≠ [] → endsSemi sql = false →
      semicolonIssue ∈ (validate_stx sql).issues ∧
      semicolonIssue.severity = Severity.info ∧
      ((validate_sql sql schema ce cat).is_valid = true ↔
        ∀ i ∈ (validate_sql sql schema ce cat).issues, i.severity ≠ Severity.error) := by
  intro sql schema ce cat h1 h2
  refine ⟨?_, rfl, validate_sql_valid_iff sql schema ce cat⟩
  rw [validate_stx_of_ne sql h1]
  apply semicolon_mem_stx
  rw [endsSemi_stripWs]
  exact h2

/-- Witness for C4 (amended) at a concrete input. -/
theorem c4_amended_witness :
    semicolonIssue ∈ (validate_stx (("SELECT 1").toList)).issues ∧
    semicolonIssue.severity = Severity.info :=
  have h := c4_amended_semicolon_note (("SELECT 1").toList) "public" false
    (Except.error "e") (by decide) (by decide)
  ⟨h.1, h.2.1⟩

/-- C10: the missing-semicolon Info note carries category `style`, which
lies outside the documented category set
`{syntax, security, performance, naming, existence}`, so issue lists can
contain an undocumented category. -/
theorem c10_style_category_undocumented :
    ∀ sql : List Char, stripWs sql ≠ [] → endsSemi sql = false →
      semicolonIssue ∈ (validate_stx sql).issues ∧
      semicolonIssue.category = "style" ∧
      ¬("style" ∈ documentedCategories) := by
  intro sql h1 h2
  refine ⟨?_, rfl, by decide⟩
  rw [validate_stx_of_ne sql h1]
  apply semicolon_mem_stx
  rw [endsSemi_stripWs]
  exact h2

/-- Witness for C10 at a concrete input. -/
theorem c10_witness :
    semicolonIssue ∈ (validate_stx (("UPDATE t SET a = 1").toList)).issues ∧
    semicolonIssue.category = "style" ∧ ¬("style" ∈ documentedCategories) :=
  c10_style_category_undocumented (("UPDATE t SET a = 1").toList) (by decide) (by decide)

/-- C2 counterexample: with an always-failing catalog and the existence
pass enabled, an input from which no table reference is extracted (here
`SELECT 1`) produces NO existence Warning at all — the checker returns an
empty result without contacting the catalog — refuting "exactly one
Warning ... regardless of which tables the text references". -/
theorem c2_counterexample :
    referencedTables (("SELECT 1").toList) = [] ∧
    (validate_table_exists (("SELECT 1").toList) "public"
      (Except.error "connection failed")).issues = [] ∧
    ((validate_sql (("SELECT 1").toList) "public" true
        (Except.error "connection failed")).issues.filter
      (fun i => i.category == "existence")) = [] := by
  decide

/-- C2 (amended): when the existence pass is enabled, the catalog lookup
fails, and at least one table reference is extracted from the text, the
existence checker contributes exactly one Warning-severity issue of
category `existence` and no Error, and the aggregate result is the other
passes' issues with that single Warning appended; when no table is
extracted the pass contributes no issues and never contacts the
catalog. -/
theorem c2_amended_failing_catalog :
    ∀ (sql : List Char) (schema : String) (e : String),
      referencedTables sql ≠ [] →
      (validate_table_exists sql schema (Except.error e)).issues = [existWarn e] ∧
      (existWarn e).severity = Severity.warning ∧
      (existWarn e).category = "existence" ∧
      (validate_sql sql schema true (Except.error e)).issues =
        (validate_sql sql schema false (Except.error e)).issues ++ [existWarn e] := by
  intro sql schema e h
  have hf : (referencedTables sql).isEmpty = false := by
    cases hs : referencedTables sql
    · exact absurd hs h
    · rfl
  have hv : validate_table_exists sql schema (Except.error e) = ⟨false, [existWarn e]⟩ := by
    unfold validate_table_exists
    simp [hf]
  have h1 : (validate_sql sql schema true (Except.error e)).issues
      = (validate_stx sql).issues ++ (validate_security sql).issues ++
        (validate_performance sql).issues ++ (validate_naming sql).issues ++
        (validate_table_exists sql schema (Except.error e)).issues := rfl
  have h2 : (validate_sql sql schema false (Except.error e)).issues
      = (validate_stx sql).issues ++ (validate_security sql).issues ++
        (validate_performance sql).issues ++ (validate_naming sql).issues ++ [] := rfl
  refine ⟨by rw [hv], rfl, rfl, ?_⟩
  rw [h1, h2, hv]
  simp

/-- Witness for C2 (amended) at a concrete input referencing a table. -/
theorem c2_amended_witness :
    (validate_table_exists (("SELECT * FROM users").toList) "public"
      (Except.error "timeout")).issues = [existWarn ("timeout")] :=
  (c2_amended_failing_catalog (("SELECT * FROM users").toList) "public" "timeout"
    (by decide)).1

/-- C7: the credential regex of the source,
`(password|passwd|pwd)\s*=\s*'[^{']+"`, demands a closing DOUBLE quote
after the single-quoted literal, so the claimed example
`password = 'secret123'` produces no security issue at all; the regex
only fires on mixed-quote text such as `password = 'x"`, evidencing that
the pattern is a slip for a single-quote-terminated literal. -/
theorem c7_credential_regex_never_fires :
    (validate_security (("password = 'secret123'").toList)) = ⟨true, []⟩ ∧
    reSearch credentialPattern (("password = 'secret123'").toList) = false ∧
    reSearch credentialPattern (("password = 'x\"").toList) = true := by
  decide

/-- C8 counterexample: `SELECT col\nFROM tbl` contains the keywords
SELECT and FROM and no LIMIT, yet the performance checker emits no issue
at all, because its regex `SELECT.+FROM` cannot cross the newline. -/
theorem c8_counterexample :
    containsWord selW (("SELECT col\nFROM tbl").toList) = true ∧
    containsWord fromW (("SELECT col\nFROM tbl").toList) = true ∧
    containsWord limitW (("SELECT col\nFROM tbl").toList) = false ∧
    (validate_performance (("SELECT col\nFROM tbl").toList)).issues = [] := by
  decide

/-- C8 (amended): for every input in which SELECT is followed, on the
same line and with at least one intervening character, by FROM
(the source's `SELECT.+FROM`, where `.` does not match a newline) and
which contains no LIMIT keyword, the performance checker emits the
Info-severity (not Warning) missing-LIMIT issue. -/
theorem c8_amended_limit_info :
    ∀ sql : List Char,
      selectFromSearch sql = true → containsWord limitW sql = false →
      limitIssue ∈ (validate_performance sql).issues ∧
      limitIssue.severity = Severity.info ∧
      ¬(limitIssue.severity = Severity.warning) := by
  intro sql h1 h2
  refine ⟨?_, rfl, by decide⟩
  have hiss : (validate_performance sql).issues =
      ((performancePatterns.filter (fun pm => reSearch pm.1 sql)).map
        (fun pm => perfIssue pm.2)) ++
      (if selectFromSearch sql && !(containsWord limitW sql)
        then [limitIssue] else []) ++
      (if (containsWord deleteW sql || containsWord updateW sql) &&
          !(containsWord whereW sql)
        then [dmlWhereIssue] else []) := rfl
  rw [hiss]
  have hc : (selectFromSearch sql && !(containsWord limitW sql)) = true := by
    rw [h1, h2]
    rfl
  have hm : limitIssue ∈ (if selectFromSearch sql && !(containsWord limitW sql)
      then [limitIssue] else []) := by
    rw [if_pos hc]
    exact List.mem_singleton_self _
  exact List.mem_append.mpr (Or.inl (List.mem_append.mpr (Or.inr hm)))

/-- Witness for C8 (amended) at a concrete input. -/
theorem c8_amended_witness :
    limitIssue ∈ (validate_performance (("SELECT id FROM users").toList)).issues :=
  (c8_amended_limit_info (("SELECT id FROM users").toList) (by decide) (by decide)).1

/-- C9 counterexample: in `SELECT\nFROM t` the SELECT keyword is followed
by whitespace (the newline) and the next FROM occurs only on a later
line, yet NO `SELECT without FROM clause` Error is emitted: the single
whitespace split lands the lookahead at the start of the FROM line, where
it does see FROM. -/
theorem c9_counterexample :
    (validate_stx (("SELECT\nFROM t").toList)).issues = [semicolonIssue] ∧
    selectFromIssue ∉ (validate_stx (("SELECT\nFROM t").toList)).issues ∧
    containsWord fromW (("SELECT\nFROM t").toList) = true := by
  decide

/-- C9 (amended): the no-FROM lookahead scans only the remainder of the
line at the position where the whitespace run after SELECT stops; hence
whenever the stripped text contains SELECT followed by a whitespace
character after which the rest of that line has no FROM keyword, the
Error is emitted — even when FROM occurs on a later line (as in
`SELECT x\nFROM t`).  When every whitespace continuation lands where the
line remainder does contain FROM (e.g. `SELECT\nFROM t`), no Error is
emitted, as the counterexample shows. -/
theorem c9_amended_select_lookahead :
    ∀ (sql pre sel6 rest : List Char) (w : Char),
      stripWs sql = pre ++ sel6 ++ w :: rest →
      startsCl selW sel6 = true → sel6.length = 6 →
      isWsC w = true → lineHasFrom (some w) rest = false →
      selectFromIssue ∈ (validate_stx sql).issues := by
  intro sql pre sel6 rest w hsplit hsel hlen hw hnf
  have hne : stripWs sql ≠ [] := by
    rw [hsplit]
    intro hh
    have hlen2 := congrArg List.length hh
    simp [List.length_append] at hlen2
  rw [validate_stx_of_ne sql hne]
  apply select_mem_stx
  rw [hsplit, List.append_assoc]
  apply snf_append
  apply snf_head
  · intro hh
    have hlen2 := congrArg List.length hh
    simp [List.length_append] at hlen2
  · have hsw : startsCl selW (sel6 ++ w :: rest) = true := by
      apply startsCl_append selW sel6 (w :: rest) hsel
      rw [hlen]
      rfl
    have hdrop : (sel6 ++ w :: rest).drop 6 = w :: rest := by
      rw [show (6 : Nat) = sel6.length from hlen.symm]
      exact List.drop_left sel6 (w :: rest)
    rw [hsw, hdrop]
    simp only [wsThenNoFrom, hw, hnf, Bool.true_and]
    simp

/-- Witness for C9 (amended) at `SELECT x\nFROM t`. -/
theorem c9_amended_witness :
    selectFromIssue ∈ (validate_stx (("SELECT x\nFROM t").toList)).issues :=
  c9_amended_select_lookahead (("SELECT x\nFROM t").toList) [] (("SELECT").toList)
    (("x\nFROM t").toList) ' ' (by decide) (by decide) (by decide) (by decide) (by decide)

/-- Sanity check mirroring the spec's testable properties: the injection
test statement yields a security Error, the unqualified-star performance
Warning, and an invalid aggregate result. -/
theorem sanity_injection_detection :
    (injIssue ("Potential OR-based injection")) ∈
      (validate_sql (("SELECT * FROM users WHERE name = 'admin' OR '1'='1'").toList)
        "public" false (Except.error "e")).issues ∧
    (perfIssue ("SELECT * can be inefficient, specify columns")) ∈
      (validate_sql (("SELECT * FROM users WHERE name = 'admin' OR '1'='1'").toList)
        "public" false (Except.error "e")).issues ∧
    (validate_sql (("SELECT * FROM users WHERE name = 'admin' OR '1'='1'").toList)
      "public" false (Except.error "e")).is_valid = false := by
  decide

/-- Sanity check mirroring the spec's testable properties: a clean
statement validates with no issues at all. -/
theorem sanity_clean_statement :
    validate_sql (("SELECT id, name FROM users WHERE id = 1 LIMIT 10;").toList)
      "public" false (Except.error "e") = ⟨true, []⟩ := by
  decide

/-- Sanity check mirroring the spec's testable properties: a mixed-case
table reference draws a naming Info issue. -/
theorem sanity_naming :
    (validate_naming (("SELECT * FROM UserAccounts").toList)).issues =
      [namingIssue (("UserAccounts").toList)] := by
  decide
